import Mathlib

/-!
Verification of the AWN data collection-and-aggregation core: unit
conversion (app/converter.py), period aggregate recomputation
(app/collector.py), the SSE broadcaster (app/broadcast.py), the
collection loop's tick error handling (app/collector.py), and the
startup gating of the collector (main.py, app/config.py).

Numbers are modelled as exact rationals; Python's round(x, 2) is
modelled as round-half-to-even at two decimal places. Python dicts are
modelled as association lists in insertion order, with assignment
updating an existing key in place and otherwise appending. Fallible
operations (a raised exception) are modelled with Option.
-/

set_option autoImplicit false

namespace Awn

/-- JSON-style field values carried by a reading: numeric or string. -/
inductive Val where
  | num (q : ℚ)
  | str (s : String)
deriving DecidableEq, Repr

/-- Round-half-to-even to an integer, the tie-breaking used by Python's
builtin round. -/
def roundHalfEven (q : ℚ) : ℤ :=
  if q - (⌊q⌋ : ℚ) < 1/2 then ⌊q⌋
  else if 1/2 < q - (⌊q⌋ : ℚ) then ⌊q⌋ + 1
  else if ⌊q⌋ % 2 = 0 then ⌊q⌋ else ⌊q⌋ + 1

/-- Python round(x, 2) over exact rationals. -/
def round2 (q : ℚ) : ℚ := (roundHalfEven (q * 100) : ℚ) / 100

/-- converter.fahrenheit_to_celsius. -/
def fahrenheit_to_celsius (f : ℚ) : ℚ := round2 ((f - 32) * 5 / 9)

/-- converter.mph_to_kmh. -/
def mph_to_kmh (mph : ℚ) : ℚ := round2 (mph * 1.60934)

/-- converter.inhg_to_hpa. -/
def inhg_to_hpa (inhg : ℚ) : ℚ := round2 (inhg * 33.8639)

/-- converter.inches_to_mm. -/
def inches_to_mm (inches : ℚ) : ℚ := round2 (inches * 25.4)

/-- converter.FIELD_CONVERSIONS: original field name, metric field name,
optional conversion function. -/
def FIELD_CONVERSIONS : List (String × String × Option (ℚ → ℚ)) :=
  [ ("tempf", "temp_c", some fahrenheit_to_celsius),
    ("tempinf", "temp_in_c", some fahrenheit_to_celsius),
    ("temp1f", "temp1_c", some fahrenheit_to_celsius),
    ("temp2f", "temp2_c", some fahrenheit_to_celsius),
    ("temp3f", "temp3_c", some fahrenheit_to_celsius),
    ("temp4f", "temp4_c", some fahrenheit_to_celsius),
    ("temp5f", "temp5_c", some fahrenheit_to_celsius),
    ("temp6f", "temp6_c", some fahrenheit_to_celsius),
    ("temp7f", "temp7_c", some fahrenheit_to_celsius),
    ("temp8f", "temp8_c", some fahrenheit_to_celsius),
    ("temp9f", "temp9_c", some fahrenheit_to_celsius),
    ("temp10f", "temp10_c", some fahrenheit_to_celsius),
    ("feelsLike", "feels_like_c", some fahrenheit_to_celsius),
    ("feelsLikein", "feels_like_in_c", some fahrenheit_to_celsius),
    ("feelsLike1", "feels_like1_c", some fahrenheit_to_celsius),
    ("feelsLike2", "feels_like2_c", some fahrenheit_to_celsius),
    ("feelsLike3", "feels_like3_c", some fahrenheit_to_celsius),
    ("feelsLike4", "feels_like4_c", some fahrenheit_to_celsius),
    ("feelsLike5", "feels_like5_c", some fahrenheit_to_celsius),
    ("feelsLike6", "feels_like6_c", some fahrenheit_to_celsius),
    ("feelsLike7", "feels_like7_c", some fahrenheit_to_celsius),
    ("feelsLike8", "feels_like8_c", some fahrenheit_to_celsius),
    ("feelsLike9", "feels_like9_c", some fahrenheit_to_celsius),
    ("feelsLike10", "feels_like10_c", some fahrenheit_to_celsius),
    ("dewPoint", "dew_point_c", some fahrenheit_to_celsius),
    ("dewPointin", "dew_point_in_c", some fahrenheit_to_celsius),
    ("dewPoint1", "dew_point1_c", some fahrenheit_to_celsius),
    ("dewPoint2", "dew_point2_c", some fahrenheit_to_celsius),
    ("dewPoint3", "dew_point3_c", some fahrenheit_to_celsius),
    ("dewPoint4", "dew_point4_c", some fahrenheit_to_celsius),
    ("dewPoint5", "dew_point5_c", some fahrenheit_to_celsius),
    ("dewPoint6", "dew_point6_c", some fahrenheit_to_celsius),
    ("dewPoint7", "dew_point7_c", some fahrenheit_to_celsius),
    ("dewPoint8", "dew_point8_c", some fahrenheit_to_celsius),
    ("dewPoint9", "dew_point9_c", some fahrenheit_to_celsius),
    ("dewPoint10", "dew_point10_c", some fahrenheit_to_celsius),
    ("windspeedmph", "wind_speed_kmh", some mph_to_kmh),
    ("windgustmph", "wind_gust_kmh", some mph_to_kmh),
    ("maxdailygust", "max_daily_gust_kmh", some mph_to_kmh),
    ("windspdmph_avg2m", "wind_speed_avg_2m_kmh", some mph_to_kmh),
    ("windspdmph_avg10m", "wind_speed_avg_10m_kmh", some mph_to_kmh),
    ("baromrelin", "barom_rel_hpa", some inhg_to_hpa),
    ("baromabsin", "barom_abs_hpa", some inhg_to_hpa),
    ("hourlyrainin", "hourly_rain_mm", some inches_to_mm),
    ("dailyrainin", "daily_rain_mm", some inches_to_mm),
    ("weeklyrainin", "weekly_rain_mm", some inches_to_mm),
    ("monthlyrainin", "monthly_rain_mm", some inches_to_mm),
    ("yearlyrainin", "yearly_rain_mm", some inches_to_mm),
    ("eventrainin", "event_rain_mm", some inches_to_mm),
    ("totalrainin", "total_rain_mm", some inches_to_mm),
    ("24hourrainin", "rain_24h_mm", some inches_to_mm),
    ("humidity", "humidity", none),
    ("humidityin", "humidity_in", none),
    ("humidity1", "humidity1", none),
    ("humidity2", "humidity2", none),
    ("humidity3", "humidity3", none),
    ("humidity4", "humidity4", none),
    ("humidity5", "humidity5", none),
    ("humidity6", "humidity6", none),
    ("humidity7", "humidity7", none),
    ("humidity8", "humidity8", none),
    ("humidity9", "humidity9", none),
    ("humidity10", "humidity10", none),
    ("winddir", "wind_dir", none),
    ("windgustdir", "wind_gust_dir", none),
    ("winddir_avg2m", "wind_dir_avg_2m", none),
    ("winddir_avg10m", "wind_dir_avg_10m", none),
    ("uv", "uv", none),
    ("solarradiation", "solar_radiation", none),
    ("date", "date", none),
    ("dateutc", "date_utc", none),
    ("tz", "tz", none) ]

/-- converter.EXCLUDED_FIELDS: metadata dropped from converted output. -/
def EXCLUDED_FIELDS : List String := ["macAddress", "device", "loc", "lastRain"]

/-- converter.NON_NUMERIC_FIELDS: keys excluded from aggregation. -/
def NON_NUMERIC_FIELDS : List String := ["date", "date_utc", "tz"]

/-- Look up a raw field name in FIELD_CONVERSIONS. -/
def lookupConv (k : String) : Option (String × Option (ℚ → ℚ)) :=
  (FIELD_CONVERSIONS.find? (fun e => e.1 == k)).map (fun e => e.2)

/-- Python dict assignment d[k] = v on an insertion-ordered association
list: overwrite in place when the key exists, otherwise append. -/
def dictInsert (d : List (String × Val)) (k : String) (v : Val) :
    List (String × Val) :=
  if d.any (fun e => e.1 == k) then
    d.map (fun e => if e.1 == k then (e.1, v) else e)
  else d ++ [(k, v)]

/-- One iteration of the loop body of converter.convert_reading. -/
def convertStep (acc : List (String × Val)) (kv : String × Val) :
    List (String × Val) :=
  if EXCLUDED_FIELDS.contains kv.1 then acc
  else
    match lookupConv kv.1 with
    | some (mk, some fn) =>
      match kv.2 with
      | Val.num q => dictInsert acc mk (Val.num (fn q))
      | v => dictInsert acc mk v
    | some (mk, none) => dictInsert acc mk kv.2
    | none => dictInsert acc kv.1 kv.2

/-- converter.convert_reading: convert a raw AWN reading from imperial to
metric units, iterating the raw dict in insertion order. -/
def convert_reading (raw : List (String × Val)) : List (String × Val) :=
  raw.foldl convertStep []

/-- converter.get_numeric_fields: the numeric fields suitable for
aggregation. -/
def get_numeric_fields (data : List (String × Val)) : List (String × ℚ) :=
  data.filterMap (fun kv =>
    match kv.2 with
    | Val.num q =>
      if NON_NUMERIC_FIELDS.contains kv.1 then none else some (kv.1, q)
    | _ => none)

/-- A converted reading as stored in the daily_readings data column. -/
abbrev ReadingData := List (String × Val)

/-- One row of the monthly_aggregates table (database.MonthlyAggregate),
without the surrogate id column. -/
structure AggRow where
  mac_address : String
  year : ℤ
  month : ℤ
  metric_name : String
  min_value : ℚ
  max_value : ℚ
  avg_value : ℚ
  count : ℕ
deriving DecidableEq

/-- The column tuple of the uniqueness constraint on monthly_aggregates:
(mac_address, year, month, metric_name). -/
def aggKey (r : AggRow) : String × ℤ × ℤ × String :=
  (r.mac_address, r.year, r.month, r.metric_name)

/-- The number of rows of a table that carry the given key tuple. -/
def countKey (t : List AggRow) (k : String × ℤ × ℤ × String) : ℕ :=
  t.countP (fun r => decide (aggKey r = k))

/-- The rows of a table that carry the given key tuple, in table order. -/
def filterKey (t : List AggRow) (k : String × ℤ × ℤ × String) : List AggRow :=
  t.filter (fun r => decide (aggKey r = k))

/-- The aggregate row update_monthly_aggregates computes for a metric
whose collected values are v :: rest: min, max, mean rounded to two
decimals, and count = number of contributing values. -/
def statsRow (mac : String) (y mo : ℤ) (metric : String) (v : ℚ)
    (rest : List ℚ) : AggRow :=
  ⟨mac, y, mo, metric, rest.foldl min v, rest.foldl max v,
    round2 ((v :: rest).sum / ((v :: rest).length : ℚ)), (v :: rest).length⟩

/-- metrics.setdefault(key, []).append(value) of collector: append a
value to the metric's list, creating the entry on first appearance. -/
def addVal (acc : List (String × List ℚ)) (k : String) (q : ℚ) :
    List (String × List ℚ) :=
  if acc.any (fun e => e.1 == k) then
    acc.map (fun e => if e.1 == k then (e.1, e.2 ++ [q]) else e)
  else acc ++ [(k, [q])]

/-- The metric-collection loop of collector.update_monthly_aggregates:
all numeric values per metric, metrics in first-appearance order. -/
def collectMetrics (rows : List ReadingData) : List (String × List ℚ) :=
  rows.foldl
    (fun acc data => (get_numeric_fields data).foldl
      (fun a kv => addVal a kv.1 kv.2) acc) []

/-- One iteration of the upsert loop of update_monthly_aggregates: select
the existing row for (mac, year, month, metric); overwrite its statistic
columns if there is exactly one, insert a new row if there is none, and
fail (scalar_one_or_none raises) if there are several. -/
def upsertMetric (mac : String) (y mo : ℤ) (metric : String)
    (vs : List ℚ) (t : List AggRow) : Option (List AggRow) :=
  match vs with
  | [] => some t
  | v :: rest =>
    let mn := rest.foldl min v
    let mx := rest.foldl max v
    let av := round2 ((v :: rest).sum / ((v :: rest).length : ℚ))
    let c := (v :: rest).length
    match countKey t (mac, y, mo, metric) with
    | 0 => some (t ++ [⟨mac, y, mo, metric, mn, mx, av, c⟩])
    | 1 => some (t.map (fun r =>
        if aggKey r = (mac, y, mo, metric) then
          { r with min_value := mn, max_value := mx, avg_value := av, count := c }
        else r))
    | _ => none

/-- collector.update_monthly_aggregates: recompute the month's aggregate
rows from the full set of stored readings of that month (given as rows),
returning the updated monthly_aggregates table. Returns without writing
when the month holds no readings. -/
def update_monthly_aggregates (mac : String) (y mo : ℤ)
    (rows : List ReadingData) (t : List AggRow) : Option (List AggRow) :=
  if rows.isEmpty then some t
  else (collectMetrics rows).foldlM
    (fun acc mv => upsertMetric mac y mo mv.1 mv.2 acc) t

/-- A sequence of aggregate recomputations, each for its own device and
period, applied to the monthly_aggregates table in order. -/
def runRecomputes (jobs : List (String × ℤ × ℤ × List ReadingData))
    (t : List AggRow) : Option (List AggRow) :=
  jobs.foldlM (fun acc j => update_monthly_aggregates j.1 j.2.1 j.2.2.1 j.2.2.2 acc) t

/-- A subscriber queue (asyncio.Queue(maxsize=100)) with its buffered,
undelivered readings in FIFO order. -/
abbrev SubQueue := List ReadingData

/-- The queue capacity used by Broadcaster.subscribe. -/
def QUEUE_MAXSIZE : ℕ := 100

/-- asyncio.Queue.put_nowait: enqueue without blocking, none when the
queue is full (the raised QueueFull). -/
def put_nowait (q : SubQueue) (d : ReadingData) : Option SubQueue :=
  if q.length < QUEUE_MAXSIZE then some (q ++ [d]) else none

/-- Broadcaster.publish: iterate the subscriber queues and attempt a
non-blocking enqueue into each; a full queue keeps its contents (the
QueueFull raised by put_nowait is swallowed). -/
def publish (d : ReadingData) (subs : List SubQueue) : List SubQueue :=
  subs.map (fun q =>
    match put_nowait q d with
    | some q2 => q2
    | none => q)

/-- Broadcaster.subscriber_count. -/
def subscriber_count (subs : List SubQueue) : ℕ := subs.length

/-- The outcome of fetch_latest_reading on one tick, as observed by the
collection loop's try block: a reading, an empty response, or one of the
exception classes the loop distinguishes. -/
inductive FetchOutcome where
  | success (raw : ReadingData)
  | noData
  | httpStatusError (code : ℕ)
  | requestError
  | unexpected
deriving DecidableEq

/-- The exceptions that can escape the try block of the loop body. -/
inductive PyExc where
  | httpStatus (code : ℕ)
  | request
  | other
deriving DecidableEq

/-- The externally observable steps of one tick of collection_loop. -/
inductive Action where
  | logNoData
  | store (converted : ReadingData)
  | updateMonthly
  | updateYearly
  | purge
  | publishReading (converted : ReadingData)
  | logRateLimited
  | logHttpError (code : ℕ)
  | logRequestError
  | logUnexpected
  | sleep (seconds : ℕ)
deriving DecidableEq

/-- The try block of the loop body of collector.collection_loop: the
actions performed on a tick, or the exception that escapes to the
handlers. -/
def tickTry (o : FetchOutcome) : Except PyExc (List Action) :=
  match o with
  | FetchOutcome.success raw =>
    let converted := convert_reading raw
    Except.ok [Action.store converted, Action.updateMonthly,
      Action.updateYearly, Action.purge, Action.publishReading converted]
  | FetchOutcome.noData => Except.ok [Action.logNoData]
  | FetchOutcome.httpStatusError c => Except.error (PyExc.httpStatus c)
  | FetchOutcome.requestError => Except.error PyExc.request
  | FetchOutcome.unexpected => Except.error PyExc.other

/-- One full tick of collection_loop: run the try block, handle any
exception with the loop's except clauses (429 sleeps an extra fixed 5
seconds), then sleep for the configured interval. The return type
carries no error: every exception is absorbed inside the tick. -/
def tick (interval : ℕ) (o : FetchOutcome) : List Action :=
  (match tickTry o with
   | Except.ok acts => acts
   | Except.error (PyExc.httpStatus c) =>
     if c = 429 then [Action.logRateLimited, Action.sleep 5]
     else [Action.logHttpError c]
   | Except.error PyExc.request => [Action.logRequestError]
   | Except.error PyExc.other => [Action.logUnexpected])
  ++ [Action.sleep interval]

/-- app.config.Settings: the environment-sourced configuration surface. -/
structure Settings where
  awn_api_key : String := ""
  awn_application_key : String := ""
  awn_mac_address : String := ""
  collection_interval_seconds : ℕ := 60
  daily_retention_days : ℕ := 7
  database_url : String := "sqlite+aiosqlite:///./weather.db"

/-- Python truthiness of a string: non-empty. -/
def pyTruthy (s : String) : Bool := !(s == "")

/-- The startup condition of main.lifespan: the collector task is created
exactly when this is true. The source checks settings.awn_api_key and
settings.awn_mac_address only. -/
def collector_starts (s : Settings) : Bool :=
  pyTruthy s.awn_api_key && pyTruthy s.awn_mac_address

/-- If the fractional part is below one half, round-half-even is the
floor. -/
theorem roundHalfEven_eq_of_lt (q : ℚ) (z : ℤ) (h1 : (z : ℚ) ≤ q)
    (h2 : q < (z : ℚ) + 1/2) : roundHalfEven q = z := by
  have hf : ⌊q⌋ = z := Int.floor_eq_iff.mpr ⟨h1, by linarith⟩
  unfold roundHalfEven
  rw [hf, if_pos (by linarith)]

/-- If the fractional part is above one half, round-half-even is the
floor plus one. -/
theorem roundHalfEven_eq_of_gt (q : ℚ) (z : ℤ) (h1 : (z : ℚ) + 1/2 < q)
    (h2 : q < (z : ℚ) + 1) : roundHalfEven q = z + 1 := by
  have h0 : (z : ℚ) ≤ q := by linarith [show (0:ℚ) < 1/2 by norm_num]
  have hf : ⌊q⌋ = z := Int.floor_eq_iff.mpr ⟨h0, by linarith⟩
  unfold roundHalfEven
  rw [hf, if_neg (by linarith), if_pos (by linarith)]

/-- Round-half-even of an integer is itself. -/
theorem roundHalfEven_intCast (z : ℤ) : roundHalfEven (z : ℚ) = z := by
  have hf : ⌊(z : ℚ)⌋ = z := Int.floor_intCast z
  unfold roundHalfEven
  rw [hf, if_pos (by norm_num)]

theorem fahrenheit_to_celsius_72 : fahrenheit_to_celsius 72 = 22.22 := by
  unfold fahrenheit_to_celsius round2
  rw [show roundHalfEven ((72 - 32) * 5 / 9 * 100 : ℚ) = 2222 from
    roundHalfEven_eq_of_lt _ 2222 (by norm_num) (by norm_num)]
  norm_num

theorem mph_to_kmh_5 : mph_to_kmh 5 = 8.05 := by
  unfold mph_to_kmh round2
  rw [show roundHalfEven ((5 : ℚ) * 1.60934 * 100) = 805 from
    roundHalfEven_eq_of_gt _ 804 (by norm_num) (by norm_num)]
  norm_num

theorem inhg_to_hpa_30 : inhg_to_hpa 30 = 1015.92 := by
  unfold inhg_to_hpa round2
  rw [show roundHalfEven ((30 : ℚ) * 33.8639 * 100) = 101592 from
    roundHalfEven_eq_of_gt _ 101591 (by norm_num) (by norm_num)]
  norm_num

/-- No original field name of the conversion table is an excluded
metadata field. -/
theorem table_fst_not_excluded :
    ∀ e ∈ FIELD_CONVERSIONS, EXCLUDED_FIELDS.contains e.1 = false := by decide

/-- No metric field name produced by the conversion table is an excluded
metadata field. -/
theorem table_snd_not_excluded :
    ∀ e ∈ FIELD_CONVERSIONS, EXCLUDED_FIELDS.contains e.2.1 = false := by decide

/-- A successful table lookup comes from a table entry with that key. -/
theorem lookupConv_mem {k : String} {r : String × Option (ℚ → ℚ)}
    (h : lookupConv k = some r) : (k, r) ∈ FIELD_CONVERSIONS := by
  unfold lookupConv at h
  rcases Option.map_eq_some'.mp h with ⟨e, hfind, hsnd⟩
  have hk : e.1 = k := by
    have := List.find?_some hfind
    simpa using this
  have hmem := List.mem_of_find?_eq_some hfind
  have : e = (k, r) := by
    cases e with
    | mk a b => simp only at hk hsnd; rw [hk, hsnd]
  rwa [this] at hmem

/-- A raw field name with a table entry is not excluded. -/
theorem lookupConv_not_excluded {k : String} {r : String × Option (ℚ → ℚ)}
    (h : lookupConv k = some r) : EXCLUDED_FIELDS.contains k = false :=
  table_fst_not_excluded (k, r) (lookupConv_mem h)

/-- Converting a single mapped numeric field applies the table transform
to the value and emits it under the metric field name. -/
theorem convert_single_num (k mk : String) (fn : ℚ → ℚ)
    (h : lookupConv k = some (mk, some fn)) (v : ℚ) :
    convert_reading [(k, Val.num v)] = [(mk, Val.num (fn v))] := by
  have hex : k ∉ EXCLUDED_FIELDS := by simpa using lookupConv_not_excluded h
  simp [convert_reading, convertStep, hex, h, dictInsert]

/-- Converting a single mapped non-numeric field renames it and passes
the value through unconverted. -/
theorem convert_single_str (k mk : String) (fn : ℚ → ℚ)
    (h : lookupConv k = some (mk, some fn)) (s : String) :
    convert_reading [(k, Val.str s)] = [(mk, Val.str s)] := by
  have hex : k ∉ EXCLUDED_FIELDS := by simpa using lookupConv_not_excluded h
  simp [convert_reading, convertStep, hex, h, dictInsert]

/-- Bool list containment agrees with membership, for strings. -/
theorem contains_eq_true_iff (l : List String) (a : String) :
    l.contains a = true ↔ a ∈ l := by simp

/-- The keys after a dict assignment are the old keys possibly extended
by the assigned key. -/
theorem mem_keys_dictInsert {d : List (String × Val)} {k0 : String}
    {v : Val} {k : String} (h : k ∈ (dictInsert d k0 v).map Prod.fst) :
    k ∈ d.map Prod.fst ∨ k = k0 := by
  unfold dictInsert at h
  by_cases hc : d.any (fun e => e.1 == k0)
  · rw [if_pos hc] at h
    left
    rw [List.map_map] at h
    have heq : d.map (Prod.fst ∘ fun e => if e.1 == k0 then (e.1, v) else e)
        = d.map Prod.fst := by
      apply List.map_congr_left
      intro e _
      simp only [Function.comp_apply]
      split <;> rfl
    rwa [heq] at h
  · rw [if_neg hc, List.map_append] at h
    rcases List.mem_append.mp h with h1 | h1
    · exact Or.inl h1
    · exact Or.inr (by simpa using h1)

/-- One conversion step never introduces an excluded metadata key. -/
theorem convertStep_keys (acc : List (String × Val)) (kv : String × Val)
    (k : String) (hk : k ∈ EXCLUDED_FIELDS)
    (h : k ∈ (convertStep acc kv).map Prod.fst) : k ∈ acc.map Prod.fst := by
  unfold convertStep at h
  by_cases hex : EXCLUDED_FIELDS.contains kv.1
  · rwa [if_pos hex] at h
  · rw [if_neg hex] at h
    have hne : k ≠ kv.1 := by
      intro he
      exact hex ((contains_eq_true_iff _ _).mpr (he ▸ hk))
    cases hl : lookupConv kv.1 with
    | none =>
      rw [hl] at h
      rcases mem_keys_dictInsert h with h1 | h1
      · exact h1
      · exact absurd h1 hne
    | some r =>
      obtain ⟨mk, fn?⟩ := r
      have hmk : mk ∉ EXCLUDED_FIELDS := by
        simpa using table_snd_not_excluded _ (lookupConv_mem hl)
      have hne2 : k ≠ mk := fun he => hmk (he ▸ hk)
      rw [hl] at h
      cases fn? with
      | none =>
        rcases mem_keys_dictInsert h with h1 | h1
        · exact h1
        · exact absurd h1 hne2
      | some fn =>
        cases hv : kv.2 with
        | num q =>
          rw [hv] at h
          rcases mem_keys_dictInsert h with h1 | h1
          · exact h1
          · exact absurd h1 hne2
        | str s =>
          rw [hv] at h
          rcases mem_keys_dictInsert h with h1 | h1
          · exact h1
          · exact absurd h1 hne2

/-- The converted output never carries an excluded metadata key. -/
theorem convert_reading_excluded (raw : List (String × Val)) (k : String)
    (hk : k ∈ EXCLUDED_FIELDS) : k ∉ (convert_reading raw).map Prod.fst := by
  suffices h : ∀ acc : List (String × Val), k ∉ acc.map Prod.fst →
      k ∉ (raw.foldl convertStep acc).map Prod.fst by
    exact h [] (by simp)
  induction raw with
  | nil => intro acc ha; simpa using ha
  | cons kv rest ih =>
    intro acc ha
    rw [List.foldl_cons]
    exact ih _ (fun hx => ha (convertStep_keys acc kv k hk hx))

/-- C1: for every numeric input value, convert applied to a mapped field
applies the field's table transform — the documented formula rounded to
two decimal places (Fahrenheit to Celsius, mph to km/h, inHg to hPa,
inches to mm) — under the renamed metric key; in particular
tempf = 72.0 yields temp_c = 22.22, windspeedmph = 5 yields
wind_speed_kmh = 8.05, and baromrelin = 30.0 yields
barom_rel_hpa = 1015.92. -/
theorem c1_convert_mapped_field_formula :
    (∀ (k mk : String) (fn : ℚ → ℚ), lookupConv k = some (mk, some fn) →
      ∀ v : ℚ, convert_reading [(k, Val.num v)] = [(mk, Val.num (fn v))]) ∧
    (∀ v : ℚ, convert_reading [("tempf", Val.num v)] =
      [("temp_c", Val.num (round2 ((v - 32) * 5 / 9)))]) ∧
    (∀ v : ℚ, convert_reading [("windspeedmph", Val.num v)] =
      [("wind_speed_kmh", Val.num (round2 (v * 1.60934)))]) ∧
    (∀ v : ℚ, convert_reading [("baromrelin", Val.num v)] =
      [("barom_rel_hpa", Val.num (round2 (v * 33.8639)))]) ∧
    (∀ v : ℚ, convert_reading [("hourlyrainin", Val.num v)] =
      [("hourly_rain_mm", Val.num (round2 (v * 25.4)))]) ∧
    convert_reading [("tempf", Val.num 72)] = [("temp_c", Val.num 22.22)] ∧
    convert_reading [("windspeedmph", Val.num 5)] =
      [("wind_speed_kmh", Val.num 8.05)] ∧
    convert_reading [("baromrelin", Val.num 30)] =
      [("barom_rel_hpa", Val.num 1015.92)] := by
  refine ⟨fun k mk fn h v => convert_single_num k mk fn h v,
    fun v => convert_single_num "tempf" "temp_c" fahrenheit_to_celsius rfl v,
    fun v => convert_single_num "windspeedmph" "wind_speed_kmh" mph_to_kmh rfl v,
    fun v => convert_single_num "baromrelin" "barom_rel_hpa" inhg_to_hpa rfl v,
    fun v => convert_single_num "hourlyrainin" "hourly_rain_mm" inches_to_mm rfl v,
    ?_, ?_, ?_⟩
  · rw [convert_single_num "tempf" "temp_c" fahrenheit_to_celsius rfl 72,
      fahrenheit_to_celsius_72]
  · rw [convert_single_num "windspeedmph" "wind_speed_kmh" mph_to_kmh rfl 5,
      mph_to_kmh_5]
  · rw [convert_single_num "baromrelin" "barom_rel_hpa" inhg_to_hpa rfl 30,
      inhg_to_hpa_30]

/-- Witness for C1: the general clause applied to tempf at value 7. -/
theorem c1_convert_mapped_field_formula_witness :
    lookupConv "tempf" = some ("temp_c", some fahrenheit_to_celsius) ∧
    convert_reading [("tempf", Val.num 7)] =
      [("temp_c", Val.num (fahrenheit_to_celsius 7))] :=
  ⟨rfl, c1_convert_mapped_field_formula.1 "tempf" "temp_c"
    fahrenheit_to_celsius rfl 7⟩

/-- C7: for every raw input mapping, no key of the excluded-metadata set
(macAddress, device, loc, lastRain) ever appears among the keys of the
converted output. -/
theorem c7_excluded_keys_never_in_output :
    ∀ (raw : List (String × Val)) (k : String), k ∈ EXCLUDED_FIELDS →
      k ∉ (convert_reading raw).map Prod.fst :=
  fun raw k hk => convert_reading_excluded raw k hk

/-- Witness for C7: macAddress is excluded and absent from a concrete
converted reading that carried it. -/
theorem c7_excluded_keys_never_in_output_witness :
    "macAddress" ∈ EXCLUDED_FIELDS ∧
    "macAddress" ∉ (convert_reading
      [("macAddress", Val.str "AA:BB"), ("tempf", Val.num 72)]).map Prod.fst :=
  ⟨by decide, c7_excluded_keys_never_in_output
    [("macAddress", Val.str "AA:BB"), ("tempf", Val.num 72)] "macAddress"
    (by decide)⟩

/-- C8: a key of the conversion table that has a transform function, when
carrying a non-numeric value, passes through under the renamed metric key
with the value unconverted. -/
theorem c8_nonnumeric_passes_through_renamed :
    ∀ (k mk : String) (fn : ℚ → ℚ), lookupConv k = some (mk, some fn) →
      ∀ s : String, convert_reading [(k, Val.str s)] = [(mk, Val.str s)] :=
  fun k mk fn h s => convert_single_str k mk fn h s

/-- Witness for C8: tempf carrying a string value passes through renamed
to temp_c, unconverted. -/
theorem c8_nonnumeric_passes_through_renamed_witness :
    lookupConv "tempf" = some ("temp_c", some fahrenheit_to_celsius) ∧
    convert_reading [("tempf", Val.str "n/a")] =
      [("temp_c", Val.str "n/a")] :=
  ⟨rfl, c8_nonnumeric_passes_through_renamed "tempf" "temp_c"
    fahrenheit_to_celsius rfl "n/a"⟩

/-- Publishing acts position-wise on the subscriber queues. -/
theorem publish_getElem (d : ReadingData) (subs : List SubQueue) (i : ℕ)
    (q : SubQueue) (h : subs[i]? = some q) :
    (publish d subs)[i]? =
      some (if q.length < QUEUE_MAXSIZE then q ++ [d] else q) := by
  unfold publish put_nowait
  rw [List.getElem?_map, h, Option.map_some']
  by_cases hq : q.length < QUEUE_MAXSIZE
  · rw [if_pos hq, if_pos hq]
  · rw [if_neg hq, if_neg hq]

/-- C4: publish performs a non-blocking enqueue into each registered
queue; a queue already holding 100 undelivered readings keeps exactly its
old contents (the enqueue raises QueueFull, which publish swallows) while
every other queue with room receives the reading at its tail; publishing
with zero subscribers is a no-op, and publish is a total function — it
never fails. -/
theorem c4_publish_drop_on_full :
    (∀ d : ReadingData, publish d [] = []) ∧
    (∀ (d : ReadingData) (q : SubQueue), q.length = 100 →
      put_nowait q d = none) ∧
    (∀ (d : ReadingData) (subs : List SubQueue) (i : ℕ) (q : SubQueue),
      subs[i]? = some q → q.length = 100 →
      (publish d subs)[i]? = some q) ∧
    (∀ (d : ReadingData) (subs : List SubQueue) (i : ℕ) (q : SubQueue),
      subs[i]? = some q → q.length < 100 →
      (publish d subs)[i]? = some (q ++ [d])) := by
  refine ⟨fun d => rfl, ?_, ?_, ?_⟩
  · intro d q hq
    unfold put_nowait QUEUE_MAXSIZE
    rw [hq, if_neg (lt_irrefl 100)]
  · intro d subs i q h hq
    have hq2 : ¬ q.length < QUEUE_MAXSIZE := by
      unfold QUEUE_MAXSIZE; rw [hq]; exact lt_irrefl 100
    rw [publish_getElem d subs i q h, if_neg hq2]
  · intro d subs i q h hq
    have hq2 : q.length < QUEUE_MAXSIZE := hq
    rw [publish_getElem d subs i q h, if_pos hq2]

/-- Witness for C4: a full queue of 100 empty readings is skipped while a
second, empty queue receives the published reading. -/
theorem c4_publish_drop_on_full_witness :
    (List.replicate 100 ([] : ReadingData)).length = 100 ∧
    [List.replicate 100 ([] : ReadingData), ([] : SubQueue)][0]? =
      some (List.replicate 100 ([] : ReadingData)) ∧
    (publish [("uv", Val.num 1)]
      [List.replicate 100 ([] : ReadingData), ([] : SubQueue)])[0]? =
      some (List.replicate 100 ([] : ReadingData)) ∧
    (publish [("uv", Val.num 1)]
      [List.replicate 100 ([] : ReadingData), ([] : SubQueue)])[1]? =
      some [[("uv", Val.num 1)]] :=
  ⟨by simp, rfl,
    c4_publish_drop_on_full.2.2.1 [("uv", Val.num 1)]
      [List.replicate 100 ([] : ReadingData), ([] : SubQueue)] 0
      (List.replicate 100 ([] : ReadingData)) rfl (by simp),
    c4_publish_drop_on_full.2.2.2 [("uv", Val.num 1)]
      [List.replicate 100 ([] : ReadingData), ([] : SubQueue)] 1
      ([] : SubQueue) rfl (by simp)⟩

/-- C10: publish leaves the subscriber registry itself unchanged — the
registry after publish has the same length, hence the same
subscriber_count, and position-wise each registered queue is still the
same queue, at most extended by the published reading; no queue is
added, removed, or reordered. -/
theorem c10_publish_registry_frame :
    ∀ (d : ReadingData) (subs : List SubQueue),
      subscriber_count (publish d subs) = subscriber_count subs ∧
      (publish d subs).length = subs.length ∧
      ∀ (i : ℕ) (q : SubQueue), subs[i]? = some q →
        ∃ q2 : SubQueue, (publish d subs)[i]? = some q2 ∧
          (q2 = q ∨ q2 = q ++ [d]) := by
  intro d subs
  refine ⟨List.length_map _ _, List.length_map _ _, ?_⟩
  intro i q h
  refine ⟨if q.length < QUEUE_MAXSIZE then q ++ [d] else q,
    publish_getElem d subs i q h, ?_⟩
  by_cases hq : q.length < QUEUE_MAXSIZE
  · rw [if_pos hq]; exact Or.inr rfl
  · rw [if_neg hq]; exact Or.inl rfl

/-- Witness for C10: the frame property at one concrete one-queue
registry. -/
theorem c10_publish_registry_frame_witness :
    [([] : SubQueue)][0]? = some ([] : SubQueue) ∧
    ∃ q2 : SubQueue,
      (publish [("uv", Val.num 1)] [([] : SubQueue)])[0]? = some q2 ∧
      (q2 = ([] : SubQueue) ∨ q2 = ([] : SubQueue) ++ [[("uv", Val.num 1)]]) :=
  ⟨rfl, (c10_publish_registry_frame [("uv", Val.num 1)] [([] : SubQueue)]).2.2
    0 ([] : SubQueue) rfl⟩

/-- C5: a 429 response is absorbed inside the tick — the try block raises
an HTTP status exception, the handler logs and sleeps an extra fixed 5
seconds, the remaining steps of the tick (store, aggregate updates,
purge, publish) are skipped, and the tick ends with the normal
configured-interval sleep. tick is total: no error propagates past the
tick boundary. -/
theorem c5_rate_limit_absorbed_with_backoff :
    ∀ interval : ℕ,
      tickTry (FetchOutcome.httpStatusError 429) =
        Except.error (PyExc.httpStatus 429) ∧
      tick interval (FetchOutcome.httpStatusError 429) =
        [Action.logRateLimited, Action.sleep 5, Action.sleep interval] :=
  fun _ => ⟨rfl, rfl⟩

/-- C6 counterexample: a configuration whose application key is absent
(empty) while the API key and the device MAC address are set still
starts the collector — main.lifespan checks only awn_api_key and
awn_mac_address. -/
theorem c6_counterexample_application_key_ignored :
    collector_starts ⟨"some-api-key", "", "AA:BB:CC:DD:EE:FF", 60, 7,
      "sqlite+aiosqlite:///./weather.db"⟩ = true := by decide

/-- C6 amended: for every configuration in which the API key or the
device identifier is absent, the CollectionLoop is not started at
application startup (absence of the application key alone does not
prevent the start). -/
theorem c6_amended_no_start_without_api_key_or_mac :
    ∀ s : Settings, s.awn_api_key = "" ∨ s.awn_mac_address = "" →
      collector_starts s = false := by
  intro s h
  unfold collector_starts pyTruthy
  rcases h with h | h <;> rw [h] <;> simp

/-- Witness for the amended C6: an empty API key prevents the start. -/
theorem c6_amended_no_start_without_api_key_or_mac_witness :
    (Settings.awn_api_key ⟨"", "app", "AA:BB:CC:DD:EE:FF", 60, 7, "db"⟩ = ""
      ∨ Settings.awn_mac_address ⟨"", "app", "AA:BB:CC:DD:EE:FF", 60, 7, "db"⟩ = "") ∧
    collector_starts ⟨"", "app", "AA:BB:CC:DD:EE:FF", 60, 7, "db"⟩ = false :=
  ⟨Or.inl rfl, c6_amended_no_start_without_api_key_or_mac
    ⟨"", "app", "AA:BB:CC:DD:EE:FF", 60, 7, "db"⟩ (Or.inl rfl)⟩

/-- countKey is the length of filterKey. -/
theorem countKey_eq_length_filterKey (t : List AggRow)
    (k : String × ℤ × ℤ × String) : countKey t k = (filterKey t k).length :=
  List.countP_eq_length_filter _ _

/-- A table with no row at a key filters to the empty list there. -/
theorem filterKey_eq_nil (t : List AggRow) (k : String × ℤ × ℤ × String)
    (h : countKey t k = 0) : filterKey t k = [] := by
  rw [countKey_eq_length_filterKey] at h
  exact List.length_eq_zero.mp h

/-- filterKey distributes over table concatenation. -/
theorem filterKey_append (a b : List AggRow) (k : String × ℤ × ℤ × String) :
    filterKey (a ++ b) k = filterKey a k ++ filterKey b k :=
  List.filter_append a b

/-- A singleton table filters to itself at its own key. -/
theorem filterKey_singleton_self (r : AggRow) (k : String × ℤ × ℤ × String)
    (h : aggKey r = k) : filterKey [r] k = [r] := by
  simp [filterKey, h]

/-- A singleton table filters to nothing at another key. -/
theorem filterKey_singleton_ne (r : AggRow) (k : String × ℤ × ℤ × String)
    (h : aggKey r ≠ k) : filterKey [r] k = [] := by
  simp [filterKey, h]

/-- filterKey commutes with a key-preserving row transformation. -/
theorem filterKey_map (f : AggRow → AggRow)
    (hf : ∀ r, aggKey (f r) = aggKey r) (t : List AggRow)
    (k : String × ℤ × ℤ × String) :
    filterKey (t.map f) k = (filterKey t k).map f := by
  unfold filterKey
  rw [List.filter_map f t]
  congr 1
  apply List.filter_congr
  intro r _
  simp only [Function.comp_apply]
  rw [hf r]

/-- Upserting an empty value list writes nothing. -/
theorem upsertMetric_nil_vals (mac : String) (y mo : ℤ) (metric : String)
    (t : List AggRow) : upsertMetric mac y mo metric [] t = some t := rfl

/-- After a successful upsert, the table holds exactly the freshly
computed statistics row at the upserted key. -/
theorem upsertMetric_filterKey_self (mac : String) (y mo : ℤ)
    (metric : String) (v : ℚ) (rest : List ℚ) (t t2 : List AggRow)
    (h : upsertMetric mac y mo metric (v :: rest) t = some t2) :
    filterKey t2 (mac, y, mo, metric) = [statsRow mac y mo metric v rest] := by
  simp only [upsertMetric] at h
  rcases hc : countKey t (mac, y, mo, metric) with _ | _ | m
  · rw [hc] at h
    have ht2 : t ++ [statsRow mac y mo metric v rest] = t2 := Option.some.inj h
    rw [← ht2, filterKey_append, filterKey_eq_nil t _ hc,
      filterKey_singleton_self (statsRow mac y mo metric v rest)
        (mac, y, mo, metric) rfl, List.nil_append]
  · rw [hc] at h
    have ht2 := Option.some.inj h
    rw [← ht2]
    rw [filterKey_map _ (fun r => by split <;> rfl)]
    obtain ⟨r0, hr0⟩ := List.length_eq_one.mp
      (by rw [← countKey_eq_length_filterKey, hc])
    have hmem : r0 ∈ filterKey t (mac, y, mo, metric) := by
      rw [hr0]; exact List.mem_cons_self _ _
    have hkey : aggKey r0 = (mac, y, mo, metric) := by
      have := (List.mem_filter.mp hmem).2
      simpa using this
    have hcomp : r0.mac_address = mac ∧ r0.year = y ∧ r0.month = mo ∧
        r0.metric_name = metric := by
      unfold aggKey at hkey
      simpa [Prod.ext_iff] using hkey
    rw [hr0, List.map_cons, List.map_nil, if_pos hkey]
    obtain ⟨h1, h2, h3, h4⟩ := hcomp
    unfold statsRow
    rw [h1, h2, h3, h4]
  · rw [hc] at h
    exact Option.noConfusion h

/-- A successful upsert leaves the table unchanged at every other key. -/
theorem upsertMetric_filterKey_other (mac : String) (y mo : ℤ)
    (metric : String) (vs : List ℚ) (t t2 : List AggRow)
    (h : upsertMetric mac y mo metric vs t = some t2)
    (k : String × ℤ × ℤ × String) (hk : k ≠ (mac, y, mo, metric)) :
    filterKey t2 k = filterKey t k := by
  cases vs with
  | nil =>
    have := Option.some.inj h
    rw [← this]
  | cons v rest =>
    simp only [upsertMetric] at h
    rcases hc : countKey t (mac, y, mo, metric) with _ | _ | m
    · rw [hc] at h
      have ht2 := Option.some.inj h
      rw [← ht2, filterKey_append,
        filterKey_singleton_ne _ _ (fun he => hk (by rw [← he]; rfl)),
        List.append_nil]
    · rw [hc] at h
      have ht2 := Option.some.inj h
      rw [← ht2]
      rw [filterKey_map _ (fun r => by split <;> rfl)]
      have : ∀ r ∈ filterKey t k,
          (if aggKey r = (mac, y, mo, metric) then
            { r with
              min_value := rest.foldl min v,
              max_value := rest.foldl max v,
              avg_value := round2 ((v :: rest).sum / ((v :: rest).length : ℚ)),
              count := (v :: rest).length }
          else r) = r := by
        intro r hr
        have hrk : aggKey r = k := by
          have := (List.mem_filter.mp hr).2
          simpa using this
        rw [if_neg (fun he => hk (hrk ▸ he))]
      rw [List.map_congr_left this, List.map_id' (filterKey t k)]
    · rw [hc] at h
      exact Option.noConfusion h

/-- When the table already holds exactly the freshly computed statistics
row at the key, the upsert rewrites it in place and changes nothing. -/
theorem upsertMetric_fix (mac : String) (y mo : ℤ) (metric : String)
    (v : ℚ) (rest : List ℚ) (t : List AggRow)
    (h : filterKey t (mac, y, mo, metric) = [statsRow mac y mo metric v rest]) :
    upsertMetric mac y mo metric (v :: rest) t = some t := by
  have hc : countKey t (mac, y, mo, metric) = 1 := by
    rw [countKey_eq_length_filterKey, h]
    rfl
  simp only [upsertMetric]
  rw [hc]
  have hmap : ∀ r ∈ t,
      (if aggKey r = (mac, y, mo, metric) then
        { r with
          min_value := rest.foldl min v,
          max_value := rest.foldl max v,
          avg_value := round2 ((v :: rest).sum / ((v :: rest).length : ℚ)),
          count := (v :: rest).length }
      else r) = r := by
    intro r hr
    by_cases hrk : aggKey r = (mac, y, mo, metric)
    · have hmem : r ∈ filterKey t (mac, y, mo, metric) :=
        List.mem_filter.mpr ⟨hr, by simpa using hrk⟩
      rw [h] at hmem
      have : r = statsRow mac y mo metric v rest := by simpa using hmem
      rw [if_pos hrk, this]
      rfl
    · rw [if_neg hrk]
  rw [List.map_congr_left hmap, List.map_id' t]

/-- A fold of upserts over metrics not mentioning a key leaves the table
unchanged at that key. -/
theorem foldUpsert_other (mac : String) (y mo : ℤ)
    (ms : List (String × List ℚ)) :
    ∀ t t2 : List AggRow,
      ms.foldlM (fun acc mv => upsertMetric mac y mo mv.1 mv.2 acc) t = some t2 →
      ∀ k : String × ℤ × ℤ × String, (∀ mv ∈ ms, k ≠ (mac, y, mo, mv.1)) →
      filterKey t2 k = filterKey t k := by
  induction ms with
  | nil =>
    intro t t2 h k _
    rw [List.foldlM_nil] at h
    rw [← Option.some.inj h]
  | cons mv tail ih =>
    intro t t2 h k hk
    rw [List.foldlM_cons] at h
    rcases Option.bind_eq_some.mp h with ⟨t1, h1, h2⟩
    rw [ih t1 t2 h2 k (fun x hx => hk x (List.mem_cons_of_mem _ hx))]
    exact upsertMetric_filterKey_other mac y mo mv.1 mv.2 t t1 h1 k
      (hk mv (List.mem_cons_self _ _))

/-- After a successful fold of upserts over metrics with distinct names,
the table holds exactly the computed statistics row of each metric. -/
theorem foldUpsert_mem (mac : String) (y mo : ℤ)
    (ms : List (String × List ℚ)) :
    ∀ t t2 : List AggRow, (ms.map Prod.fst).Nodup →
      ms.foldlM (fun acc mv => upsertMetric mac y mo mv.1 mv.2 acc) t = some t2 →
      ∀ (m : String) (v : ℚ) (rest : List ℚ), (m, v :: rest) ∈ ms →
      filterKey t2 (mac, y, mo, m) = [statsRow mac y mo m v rest] := by
  induction ms with
  | nil => intro t t2 _ _ m v rest hm; exact absurd hm (List.not_mem_nil _)
  | cons mv tail ih =>
    intro t t2 hnd h m v rest hm
    rw [List.foldlM_cons] at h
    rcases Option.bind_eq_some.mp h with ⟨t1, h1, h2⟩
    rcases List.mem_cons.mp hm with he | hm2
    · have hfst : mv.1 = m := by rw [← he]
      have hnotin : ∀ x ∈ tail, (mac, y, mo, m) ≠ ((mac : String), y, mo, x.1) := by
        intro x hx hcon
        have hmx : m = x.1 := congrArg (fun z => z.2.2.2) hcon
        have hmem2 : mv.1 ∈ tail.map Prod.fst := by
          rw [hfst, hmx]
          exact List.mem_map_of_mem Prod.fst hx
        exact (List.nodup_cons.mp hnd).1 hmem2
      rw [foldUpsert_other mac y mo tail t1 t2 h2 _ hnotin]
      apply upsertMetric_filterKey_self mac y mo m v rest t t1
      rw [← he] at h1
      exact h1
    · exact ih t1 t2 (List.nodup_cons.mp hnd).2 h2 m v rest hm2

/-- A fold of upserts each of which fixes the table fixes the table. -/
theorem foldUpsert_fix (mac : String) (y mo : ℤ)
    (ms : List (String × List ℚ)) :
    ∀ t : List AggRow,
      (∀ mv ∈ ms, upsertMetric mac y mo mv.1 mv.2 t = some t) →
      ms.foldlM (fun acc mv => upsertMetric mac y mo mv.1 mv.2 acc) t = some t := by
  induction ms with
  | nil => intro t _; rfl
  | cons mv tail ih =>
    intro t hfix
    rw [List.foldlM_cons, hfix mv (List.mem_cons_self _ _)]
    exact ih t (fun x hx => hfix x (List.mem_cons_of_mem _ hx))

/-- Re-running a successful fold of upserts on its own result changes
nothing. -/
theorem foldUpsert_idem (mac : String) (y mo : ℤ)
    (ms : List (String × List ℚ)) (t t2 : List AggRow)
    (hnd : (ms.map Prod.fst).Nodup)
    (h : ms.foldlM (fun acc mv => upsertMetric mac y mo mv.1 mv.2 acc) t = some t2) :
    ms.foldlM (fun acc mv => upsertMetric mac y mo mv.1 mv.2 acc) t2 = some t2 := by
  apply foldUpsert_fix
  intro mv hmv
  rcases mv with ⟨m, vs⟩
  cases vs with
  | nil => exact upsertMetric_nil_vals mac y mo m t2
  | cons v rest =>
    exact upsertMetric_fix mac y mo m v rest t2
      (foldUpsert_mem mac y mo ms t t2 hnd h m v rest hmv)

/-- A successful upsert preserves the at-most-one-row-per-key invariant. -/
theorem upsertMetric_countKey_le (mac : String) (y mo : ℤ) (metric : String)
    (vs : List ℚ) (t t2 : List AggRow)
    (h : upsertMetric mac y mo metric vs t = some t2)
    (hinv : ∀ k, countKey t k ≤ 1) : ∀ k, countKey t2 k ≤ 1 := by
  intro k
  by_cases hk : k = (mac, y, mo, metric)
  · subst hk
    cases vs with
    | nil => rw [← Option.some.inj h]; exact hinv _
    | cons v rest =>
      rw [countKey_eq_length_filterKey,
        upsertMetric_filterKey_self mac y mo metric v rest t t2 h]
      exact le_refl 1
  · rw [countKey_eq_length_filterKey,
      upsertMetric_filterKey_other mac y mo metric vs t t2 h k hk,
      ← countKey_eq_length_filterKey]
    exact hinv k

/-- A fold of upserts preserves the at-most-one-row-per-key invariant. -/
theorem foldUpsert_countKey_le (mac : String) (y mo : ℤ)
    (ms : List (String × List ℚ)) :
    ∀ t t2 : List AggRow,
      ms.foldlM (fun acc mv => upsertMetric mac y mo mv.1 mv.2 acc) t = some t2 →
      (∀ k, countKey t k ≤ 1) → ∀ k, countKey t2 k ≤ 1 := by
  induction ms with
  | nil => intro t t2 h hinv; rw [← Option.some.inj h]; exact hinv
  | cons mv tail ih =>
    intro t t2 h hinv
    rw [List.foldlM_cons] at h
    rcases Option.bind_eq_some.mp h with ⟨t1, h1, h2⟩
    exact ih t1 t2 h2 (upsertMetric_countKey_le mac y mo mv.1 mv.2 t t1 h1 hinv)

/-- A generic foldl invariant principle. -/
theorem foldl_invariant {α β : Type _} (f : α → β → α) (P : α → Prop)
    (hstep : ∀ a b, P a → P (f a b)) :
    ∀ (l : List β) (a : α), P a → P (l.foldl f a) := by
  intro l
  induction l with
  | nil => intro a ha; exact ha
  | cons b tl ih => intro a ha; rw [List.foldl_cons]; exact ih _ (hstep a b ha)

/-- addVal preserves distinctness of the collected metric names. -/
theorem addVal_keys_nodup (acc : List (String × List ℚ)) (k : String) (q : ℚ)
    (h : (acc.map Prod.fst).Nodup) : ((addVal acc k q).map Prod.fst).Nodup := by
  unfold addVal
  by_cases hc : acc.any (fun e => e.1 == k)
  · rw [if_pos hc]
    have heq : (acc.map (fun e => if e.1 == k then (e.1, e.2 ++ [q]) else e)).map
        Prod.fst = acc.map Prod.fst := by
      rw [List.map_map]
      apply List.map_congr_left
      intro e _
      simp only [Function.comp_apply]
      split <;> rfl
    rwa [heq]
  · rw [if_neg hc, List.map_append]
    have hk : k ∉ acc.map Prod.fst := by
      intro hm
      apply hc
      rcases List.mem_map.mp hm with ⟨e, he, hfst⟩
      exact List.any_eq_true.mpr ⟨e, he, by rw [hfst]; exact beq_self_eq_true k⟩
    simp [List.nodup_append, h, hk]

/-- The metric names collected from a period's readings are distinct. -/
theorem collectMetrics_keys_nodup (rows : List ReadingData) :
    ((collectMetrics rows).map Prod.fst).Nodup := by
  unfold collectMetrics
  exact foldl_invariant _ (fun acc => (acc.map Prod.fst).Nodup)
    (fun acc data hacc =>
      foldl_invariant _ (fun a => (a.map Prod.fst).Nodup)
        (fun a kv ha => addVal_keys_nodup a kv.1 kv.2 ha)
        (get_numeric_fields data) acc hacc)
    rows [] List.nodup_nil

/-- update_monthly_aggregates preserves the at-most-one-row-per-key
invariant of the monthly_aggregates uniqueness constraint. -/
theorem update_countKey_le (mac : String) (y mo : ℤ)
    (rows : List ReadingData) (t t2 : List AggRow)
    (h : update_monthly_aggregates mac y mo rows t = some t2)
    (hinv : ∀ k, countKey t k ≤ 1) : ∀ k, countKey t2 k ≤ 1 := by
  unfold update_monthly_aggregates at h
  by_cases hr : rows.isEmpty
  · rw [if_pos hr] at h
    rw [← Option.some.inj h]
    exact hinv
  · rw [if_neg hr] at h
    exact foldUpsert_countKey_le mac y mo (collectMetrics rows) t t2 h hinv

/-- A whole sequence of recomputations preserves the
at-most-one-row-per-key invariant. -/
theorem runRecomputes_countKey_le
    (jobs : List (String × ℤ × ℤ × List ReadingData)) :
    ∀ t t2 : List AggRow, (∀ k, countKey t k ≤ 1) →
      runRecomputes jobs t = some t2 → ∀ k, countKey t2 k ≤ 1 := by
  induction jobs with
  | nil =>
    intro t t2 hinv h
    rw [← Option.some.inj h]
    exact hinv
  | cons j tail ih =>
    intro t t2 hinv h
    unfold runRecomputes at h
    rw [List.foldlM_cons] at h
    rcases Option.bind_eq_some.mp h with ⟨t1, h1, h2⟩
    exact ih t1 t2 (update_countKey_le j.1 j.2.1 j.2.2.1 j.2.2.2 t t1 h1 hinv) h2

/-- C2: recomputing a period's aggregate computes, for each metric
appearing in any stored reading's numeric field set in that period, the
minimum, maximum, arithmetic mean rounded to two decimals, and a count
equal to the number of contributing values; a period with no stored
readings writes nothing; and a period holding the values
[22.22, 16.5] for metric temp_c yields the aggregate row with min 16.5,
max 22.22, avg 19.36, count 2. -/
theorem c2_recompute_period_statistics :
    (∀ (mac : String) (y mo : ℤ) (t : List AggRow),
      update_monthly_aggregates mac y mo [] t = some t) ∧
    (∀ (mac : String) (y mo : ℤ) (rows : List ReadingData)
      (t t2 : List AggRow) (m : String) (v : ℚ) (rest : List ℚ),
      update_monthly_aggregates mac y mo rows t = some t2 →
      (m, v :: rest) ∈ collectMetrics rows →
      ∃ r, r ∈ t2 ∧ r.mac_address = mac ∧ r.year = y ∧ r.month = mo ∧
        r.metric_name = m ∧ r.min_value = rest.foldl min v ∧
        r.max_value = rest.foldl max v ∧
        r.avg_value = round2 ((v :: rest).sum / ((v :: rest).length : ℚ)) ∧
        r.count = (v :: rest).length) ∧
    update_monthly_aggregates "AA" 2024 5
      [[("temp_c", Val.num 22.22)], [("temp_c", Val.num 16.5)]] [] =
      some [⟨"AA", 2024, 5, "temp_c", 16.5, 22.22, 19.36, 2⟩] := by
  refine ⟨fun mac y mo t => rfl, ?_, ?_⟩
  · intro mac y mo rows t t2 m v rest h hmem
    cases rows with
    | nil => exact absurd hmem (List.not_mem_nil _)
    | cons r0 rows0 =>
      unfold update_monthly_aggregates at h
      rw [if_neg (by simp)] at h
      have hfilter := foldUpsert_mem mac y mo (collectMetrics (r0 :: rows0))
        t t2 (collectMetrics_keys_nodup _) h m v rest hmem
      have hmem2 : statsRow mac y mo m v rest ∈ t2 :=
        List.mem_of_mem_filter (show statsRow mac y mo m v rest ∈
          filterKey t2 (mac, y, mo, m) by
            rw [hfilter]; exact List.mem_cons_self _ _)
      exact ⟨statsRow mac y mo m v rest, hmem2, rfl, rfl, rfl, rfl, rfl,
        rfl, rfl, rfl⟩
  · have h0 : update_monthly_aggregates "AA" 2024 5
        [[("temp_c", Val.num 22.22)], [("temp_c", Val.num 16.5)]] [] =
        some [statsRow "AA" 2024 5 "temp_c" 22.22 [16.5]] := rfl
    rw [h0]
    suffices hrow : statsRow "AA" 2024 5 "temp_c" 22.22 [16.5] =
        ⟨"AA", 2024, 5, "temp_c", 16.5, 22.22, 19.36, 2⟩ by rw [hrow]
    have hmin : List.foldl min (22.22 : ℚ) [16.5] = 16.5 := by
      rw [List.foldl_cons, List.foldl_nil]
      exact min_eq_right (by norm_num)
    have hmax : List.foldl max (22.22 : ℚ) [16.5] = 22.22 := by
      rw [List.foldl_cons, List.foldl_nil]
      exact max_eq_left (by norm_num)
    have havg : round2 (((22.22 : ℚ) :: [16.5]).sum /
        ((((22.22 : ℚ) :: [16.5]).length) : ℚ)) = 19.36 := by
      have h1 : ((22.22 : ℚ) :: [16.5]).sum /
          ((((22.22 : ℚ) :: [16.5]).length) : ℚ) = 19.36 := by
        norm_num [List.sum_cons, List.sum_nil]
      rw [h1]
      unfold round2
      rw [show ((19.36 : ℚ) * 100) = ((1936 : ℤ) : ℚ) by norm_num,
        roundHalfEven_intCast]
      norm_num
    unfold statsRow
    rw [hmin, hmax, havg]
    rfl

/-- Witness for C2: the general clause applied to a one-reading period
whose only metric m carries the single value 1. -/
theorem c2_recompute_period_statistics_witness :
    update_monthly_aggregates "AA" 2024 5 [[("m", Val.num 1)]] [] =
      some [statsRow "AA" 2024 5 "m" 1 []] ∧
    ("m", [(1 : ℚ)]) ∈ collectMetrics [[("m", Val.num 1)]] ∧
    (∃ r, r ∈ [statsRow "AA" 2024 5 "m" 1 []] ∧ r.mac_address = "AA" ∧
      r.year = 2024 ∧ r.month = 5 ∧ r.metric_name = "m" ∧
      r.min_value = List.foldl min 1 [] ∧ r.max_value = List.foldl max 1 [] ∧
      r.avg_value = round2 (((1 : ℚ) :: []).sum / ((((1 : ℚ) :: []).length) : ℚ)) ∧
      r.count = ((1 : ℚ) :: []).length) :=
  ⟨rfl, List.mem_cons_self _ _,
    c2_recompute_period_statistics.2.1 "AA" 2024 5 [[("m", Val.num 1)]] []
      [statsRow "AA" 2024 5 "m" 1 []] "m" 1 [] rfl (List.mem_cons_self _ _)⟩

/-- C3: recomputing a period's aggregates a second time over the same
stored readings returns the identical table (idempotence), and any
sequence of recomputations preserves the invariant that at most one
aggregate row exists per (device, period key, metric name). -/
theorem c3_recompute_idempotent_and_unique :
    (∀ (mac : String) (y mo : ℤ) (rows : List ReadingData)
      (t t2 : List AggRow),
      update_monthly_aggregates mac y mo rows t = some t2 →
      update_monthly_aggregates mac y mo rows t2 = some t2) ∧
    (∀ (jobs : List (String × ℤ × ℤ × List ReadingData)) (t t2 : List AggRow),
      (∀ k, countKey t k ≤ 1) → runRecomputes jobs t = some t2 →
      ∀ k, countKey t2 k ≤ 1) := by
  constructor
  · intro mac y mo rows t t2 h
    unfold update_monthly_aggregates at h ⊢
    by_cases hr : rows.isEmpty
    · rw [if_pos hr] at h ⊢
    · rw [if_neg hr] at h ⊢
      exact foldUpsert_idem mac y mo (collectMetrics rows) t t2
        (collectMetrics_keys_nodup rows) h
  · exact fun jobs t t2 hinv h => runRecomputes_countKey_le jobs t t2 hinv h

/-- Witness for C3: idempotence and the uniqueness invariant at a
concrete one-reading recomputation starting from the empty table. -/
theorem c3_recompute_idempotent_and_unique_witness :
    update_monthly_aggregates "AA" 2024 5 [[("m", Val.num 1)]]
      [statsRow "AA" 2024 5 "m" 1 []] = some [statsRow "AA" 2024 5 "m" 1 []] ∧
    (∀ k, countKey [statsRow "AA" 2024 5 "m" 1 []] k ≤ 1) :=
  ⟨c3_recompute_idempotent_and_unique.1 "AA" 2024 5 [[("m", Val.num 1)]] []
      [statsRow "AA" 2024 5 "m" 1 []] rfl,
    c3_recompute_idempotent_and_unique.2 [("AA", 2024, 5, [[("m", Val.num 1)]])]
      [] [statsRow "AA" 2024 5 "m" 1 []] (fun _ => Nat.zero_le 1) rfl⟩

end Awn
